import Mathlib

/-!
Verification of the `ruff_fmt` boundary adapter
(src/frontend/src/common/prettier/plugins/python/src/ruff_fmt/src/lib.rs).

The adapter exposes a single operation

  format(input, path?, config?) -> Result<String, String>

which decodes an optional boundary configuration into the typed
`ruff_fmt_config::Config`, folds an optional file path into it via
`with_path`, and hands the source text together with the resolved
configuration to the external formatting engine
(`ruff_python_formatter::format_module_source`), extracting the code
string of the result on success and the display string of the error on
failure.

The formatting engine is external and opaque to the adapter, so it is
modelled as a parameter: a total function from source text and a fully
resolved engine configuration to a result or an engine error.  The
configuration crate (`ruff_fmt_config`) is repository code that is not
part of the sources at hand; its decoder, defaults and `with_path`
are modelled from the specification, as marked on each definition.
-/

/-- The `indent_style` enum of the boundary configuration: `"tab" | "space"`. -/
inductive IndentStyle
  | tab
  | space
deriving DecidableEq, Repr

/-- The `line_ending` enum of the boundary configuration: `"lf" | "crlf"`. -/
inductive LineEnding
  | lf
  | crlf
deriving DecidableEq, Repr

/-- The `quote_style` enum of the boundary configuration: `"single" | "double"`. -/
inductive QuoteStyle
  | single
  | double
deriving DecidableEq, Repr

/-- The `magic_trailing_comma` enum of the boundary configuration:
`"respect" | "ignore"`. -/
inductive MagicTrailingComma
  | respect
  | ignore
deriving DecidableEq, Repr

/-- A dynamically-typed value of the boundary encoding (the JavaScript
value handed to `serde_wasm_bindgen::from_value`): a string or a number. -/
inductive RawValue
  | str (s : String)
  | num (n : Int)
deriving DecidableEq, Repr

/-- The boundary-encoded configuration object: a finite map of field
names to raw values, as a list of key/value pairs. -/
abbrev RawConfig := List (String × RawValue)

/-- Modelled from the spec: the typed configuration record
`ruff_fmt_config::Config` (the crate is not among the sources).  All six
fields are optional at the boundary; `none` means the caller left the
field unset and the engine default applies. -/
structure InnerConfig where
  indent_style : Option IndentStyle := none
  indent_width : Option Nat := none
  line_width : Option Nat := none
  line_ending : Option LineEnding := none
  quote_style : Option QuoteStyle := none
  magic_trailing_comma : Option MagicTrailingComma := none
deriving DecidableEq, Repr

/-- Modelled from the spec: `Default::default()` of
`ruff_fmt_config::Config` leaves every boundary field unset, so that the
engine's built-in defaults apply to all of them. -/
def InnerConfig.default : InnerConfig := {}

/-- A configuration decoding failure; `to_string` yields the underlying
decoder's message. -/
structure DecodeError where
  msg : String
deriving DecidableEq, Repr

/-- The textual representation of a decode error (Rust `e.to_string()`). -/
def DecodeError.to_string (e : DecodeError) : String := e.msg

/-- Modelled from the spec: decoding of a single field of the boundary
configuration.  A recognized key with a valid value yields an update of
the typed record; an unknown key or an invalid value is rejected with a
decode error carrying the decoder's message. -/
def parseField (key : String) (v : RawValue) :
    Except DecodeError (InnerConfig → InnerConfig) :=
  match key, v with
  | "indent_style", .str "tab" =>
      .ok fun cfg => { cfg with indent_style := some .tab }
  | "indent_style", .str "space" =>
      .ok fun cfg => { cfg with indent_style := some .space }
  | "indent_style", _ =>
      .error ⟨"invalid value for field indent_style"⟩
  | "indent_width", .num n =>
      if 1 ≤ n then .ok fun cfg => { cfg with indent_width := some n.toNat }
      else .error ⟨"invalid value for field indent_width"⟩
  | "indent_width", _ =>
      .error ⟨"invalid value for field indent_width"⟩
  | "line_width", .num n =>
      if 1 ≤ n then .ok fun cfg => { cfg with line_width := some n.toNat }
      else .error ⟨"invalid value for field line_width"⟩
  | "line_width", _ =>
      .error ⟨"invalid value for field line_width"⟩
  | "line_ending", .str "lf" =>
      .ok fun cfg => { cfg with line_ending := some .lf }
  | "line_ending", .str "crlf" =>
      .ok fun cfg => { cfg with line_ending := some .crlf }
  | "line_ending", _ =>
      .error ⟨"invalid value for field line_ending"⟩
  | "quote_style", .str "single" =>
      .ok fun cfg => { cfg with quote_style := some .single }
  | "quote_style", .str "double" =>
      .ok fun cfg => { cfg with quote_style := some .double }
  | "quote_style", _ =>
      .error ⟨"invalid value for field quote_style"⟩
  | "magic_trailing_comma", .str "respect" =>
      .ok fun cfg => { cfg with magic_trailing_comma := some .respect }
  | "magic_trailing_comma", .str "ignore" =>
      .ok fun cfg => { cfg with magic_trailing_comma := some .ignore }
  | "magic_trailing_comma", _ =>
      .error ⟨"invalid value for field magic_trailing_comma"⟩
  | _, _ =>
      .error ⟨"unknown field " ++ key⟩

/-- Modelled from the spec: decoding of the remaining fields of a
boundary configuration object on top of an already decoded record,
failing fast on the first unknown key or invalid value. -/
def decodeFields (cfg : InnerConfig) : RawConfig → Except DecodeError InnerConfig
  | [] => .ok cfg
  | (k, v) :: rest =>
    match parseField k v with
    | .error e => .error e
    | .ok f => decodeFields (f cfg) rest

/-- Modelled from the spec: the decoding step
`serde_wasm_bindgen::from_value` specialised to `ruff_fmt_config::Config`
(the decode rejects unknown shapes and invalid enum values). -/
def decodeConfig (rc : RawConfig) : Except DecodeError InnerConfig :=
  decodeFields InnerConfig.default rc

/-- Merge of a derived (path-based) partial configuration underneath the
caller's configuration: every field the caller set explicitly is kept,
and only unset fields take the derived value. -/
def mergeUnder (cfg derived : InnerConfig) : InnerConfig where
  indent_style := cfg.indent_style.orElse fun _ => derived.indent_style
  indent_width := cfg.indent_width.orElse fun _ => derived.indent_width
  line_width := cfg.line_width.orElse fun _ => derived.line_width
  line_ending := cfg.line_ending.orElse fun _ => derived.line_ending
  quote_style := cfg.quote_style.orElse fun _ => derived.quote_style
  magic_trailing_comma :=
    cfg.magic_trailing_comma.orElse fun _ => derived.magic_trailing_comma

/-- Modelled from the spec: the extension-based heuristic deriving a
partial configuration from a file path (the spec gives extension-based
heuristics as the example of path-sensitive defaults; stub files get
their own derived defaults, all other paths derive nothing). -/
def pathDerived (path : String) : InnerConfig :=
  if path.endsWith ".pyi" then
    { line_width := some 130, magic_trailing_comma := some .ignore }
  else
    {}

/-- Modelled from the spec: `ruff_fmt_config::Config::with_path`.  The
path-derived override is applied underneath the caller's explicit
fields (explicit-over-derived precedence), and the empty-string path is
treated as "no path" by convention. -/
def InnerConfig.with_path (cfg : InnerConfig) (path : String) : InnerConfig :=
  if path = "" then cfg else mergeUnder cfg (pathDerived path)

/-- The fully resolved configuration handed to the formatting engine:
every field is populated. -/
structure EngineConfig where
  indent_style : IndentStyle
  indent_width : Nat
  line_width : Nat
  line_ending : LineEnding
  quote_style : QuoteStyle
  magic_trailing_comma : MagicTrailingComma
deriving DecidableEq, Repr

/-- Modelled from the spec: the engine's built-in default configuration
(the defaults that apply to every field the caller left unset). -/
def defaultEngineConfig : EngineConfig where
  indent_style := .space
  indent_width := 4
  line_width := 88
  line_ending := .lf
  quote_style := .double
  magic_trailing_comma := .respect

/-- Modelled from the spec: the conversion `config.into()` from the
typed boundary configuration into the engine's fully populated options,
filling every unset field with the engine default. -/
def InnerConfig.toEngineConfig (cfg : InnerConfig) : EngineConfig where
  indent_style := cfg.indent_style.getD defaultEngineConfig.indent_style
  indent_width := cfg.indent_width.getD defaultEngineConfig.indent_width
  line_width := cfg.line_width.getD defaultEngineConfig.line_width
  line_ending := cfg.line_ending.getD defaultEngineConfig.line_ending
  quote_style := cfg.quote_style.getD defaultEngineConfig.quote_style
  magic_trailing_comma :=
    cfg.magic_trailing_comma.getD defaultEngineConfig.magic_trailing_comma

/-- The engine's result object: the formatted code plus further
metadata (whether the formatting changed the source). -/
structure FormatResult where
  code : String
  changed : Bool
deriving DecidableEq, Repr

/-- Extraction of the formatted code string from the engine's result
(Rust `result.into_code()`). -/
def FormatResult.into_code (r : FormatResult) : String := r.code

/-- A formatting failure of the engine; `to_string` yields its display
representation. -/
structure FormatError where
  msg : String
deriving DecidableEq, Repr

/-- The textual representation of an engine error (Rust
`err.to_string()`). -/
def FormatError.to_string (e : FormatError) : String := e.msg

/-- The external formatting engine
(`ruff_python_formatter::format_module_source`), opaque to the adapter:
source text and resolved options in, a result object or an engine error
out. -/
abbrev Engine := String → EngineConfig → Except FormatError FormatResult

/-- The exported entry point of the adapter, mirroring `format` in
lib.rs: decode the optional boundary configuration (failing fast with
the decoder's message), fold in the optional path via `with_path`, call
the engine, and return the code string on success or the error's display
string on failure. -/
def format (engine : Engine) (input : String) (path : Option String)
    (config : Option RawConfig) : Except String String :=
  match (match config with
    | some rc => Except.mapError DecodeError.to_string (decodeConfig rc)
    | none => Except.ok InnerConfig.default) with
  | .error e => .error e
  | .ok cfg =>
    let cfg := match path with
      | some p => cfg.with_path p
      | none => cfg
    match engine input cfg.toEngineConfig with
    | .ok result => .ok result.into_code
    | .error err => .error err.to_string

/-- The configuration resolver (section 4.1 of the spec): decode the
optional boundary configuration, then fold in the optional path. -/
def resolve (raw : Option RawConfig) (path : Option String) :
    Except DecodeError InnerConfig :=
  match (match raw with
    | some rc => decodeConfig rc
    | none => Except.ok InnerConfig.default) with
  | .error e => .error e
  | .ok cfg =>
    .ok (match path with
      | some p => cfg.with_path p
      | none => cfg)

/-- The format invoker composed with the error translator (sections 4.2
and 4.3 of the spec): call the engine on the resolved configuration and
collapse its outcome to the boundary result. -/
def invokeFormat (engine : Engine) (input : String) (cfg : InnerConfig) :
    Except String String :=
  match engine input cfg.toEngineConfig with
  | .ok result => .ok result.into_code
  | .error err => .error err.to_string

/-- A stub engine used to instantiate theorems about the adapter at
concrete inputs: it returns its input unchanged. -/
def idEngine : Engine := fun input _ => .ok ⟨input, false⟩

/-- A stub engine used to instantiate theorems about the adapter at
concrete inputs: it always fails with a fixed syntax error. -/
def failEngine : Engine := fun _ _ => .error ⟨"Expected a statement"⟩

/-- `True` when the second configuration agrees with the first on every
field the first has explicitly set; fields left unset by the first may
differ.  Used to state explicit-over-derived precedence. -/
def explicitPreserved (cfg cfg' : InnerConfig) : Prop :=
  (cfg.indent_style.isSome → cfg'.indent_style = cfg.indent_style) ∧
  (cfg.indent_width.isSome → cfg'.indent_width = cfg.indent_width) ∧
  (cfg.line_width.isSome → cfg'.line_width = cfg.line_width) ∧
  (cfg.line_ending.isSome → cfg'.line_ending = cfg.line_ending) ∧
  (cfg.quote_style.isSome → cfg'.quote_style = cfg.quote_style) ∧
  (cfg.magic_trailing_comma.isSome →
    cfg'.magic_trailing_comma = cfg.magic_trailing_comma)

/-- `true` when the boundary configuration object contains a field the
decoder rejects: an unknown key or an invalid value. -/
def hasBadField (rc : RawConfig) : Bool :=
  rc.any fun kv => !(parseField kv.1 kv.2).isOk

/-- The decoder's message on a failing configuration object (the empty
string when decoding succeeds). -/
def decodeMsg (rc : RawConfig) : String :=
  match decodeConfig rc with
  | .error e => e.to_string
  | .ok _ => ""

/-- An option that is set is unchanged by `orElse`. -/
theorem orElse_of_isSome {α : Type} {a : Option α} (f : Unit → Option α)
    (h : a.isSome) : a.orElse f = a := by
  cases a with
  | none => simp at h
  | some x => rfl

/-- `format` is the composition of the resolver with the invoker and the
error translator. -/
theorem format_eq_resolve (engine : Engine) (input : String)
    (path : Option String) (raw : Option RawConfig) :
    format engine input path raw =
      match resolve raw path with
      | .error e => .error e.to_string
      | .ok cfg => invokeFormat engine input cfg := by
  cases raw with
  | none => cases path <;> rfl
  | some rc =>
    cases h : decodeConfig rc with
    | error e => simp [format, resolve, h, Except.mapError]
    | ok cfg => cases path <;> simp [format, resolve, invokeFormat, h, Except.mapError]

/-- Folding the empty path into a configuration changes nothing. -/
theorem with_path_empty (cfg : InnerConfig) : cfg.with_path "" = cfg := by
  simp [InnerConfig.with_path]

/-- If some field of the configuration object is rejected by the field
decoder, decoding fails from any starting record. -/
theorem decodeFields_bad_isOk (rc : RawConfig) :
    hasBadField rc = true → ∀ cfg, (decodeFields cfg rc).isOk = false := by
  induction rc with
  | nil => intro h; simp [hasBadField] at h
  | cons kv rest ih =>
    intro h cfg
    cases hp : parseField kv.1 kv.2 with
    | error e => simp [decodeFields, hp, Except.isOk, Except.toBool]
    | ok f =>
      have hrest : hasBadField rest = true := by
        simp [hasBadField, hp, Except.isOk, Except.toBool] at h
        simpa [hasBadField] using h
      simpa [decodeFields, hp] using ih hrest (f cfg)

/-- C1: if decoding the supplied configuration fails, `format` reports
the decode failure immediately, and the result is the same for every
engine — the formatting engine is never invoked before the decode error
is surfaced. -/
theorem format_decode_failure_skips_engine (engine engine2 : Engine)
    (input : String) (path : Option String) (rc : RawConfig)
    (e : DecodeError) (h : decodeConfig rc = .error e) :
    format engine input path (some rc) = .error e.to_string ∧
    format engine input path (some rc) = format engine2 input path (some rc) := by
  constructor
  · simp [format, h, Except.mapError]
  · simp [format, h, Except.mapError]

/-- Witness for C1 at a concrete unknown-field configuration. -/
theorem format_decode_failure_skips_engine_witness :
    format idEngine "x = 1" (some "a.py") (some [("bogus", RawValue.str "v")]) =
      .error "unknown field bogus" ∧
    format idEngine "x = 1" (some "a.py") (some [("bogus", RawValue.str "v")]) =
      format failEngine "x = 1" (some "a.py") (some [("bogus", RawValue.str "v")]) :=
  format_decode_failure_skips_engine idEngine failEngine "x = 1" (some "a.py")
    [("bogus", RawValue.str "v")] ⟨"unknown field bogus"⟩ rfl

/-- C2: the path-derived override never changes a field the caller
explicitly set — for every configuration and every path, every field
that is set in the configuration keeps its value after `with_path`;
only unset fields may be filled in. -/
theorem with_path_preserves_explicit (cfg : InnerConfig) (path : String) :
    explicitPreserved cfg (cfg.with_path path) := by
  unfold explicitPreserved InnerConfig.with_path
  split
  · exact ⟨fun _ => rfl, fun _ => rfl, fun _ => rfl, fun _ => rfl,
      fun _ => rfl, fun _ => rfl⟩
  · exact ⟨fun h => orElse_of_isSome _ h, fun h => orElse_of_isSome _ h,
      fun h => orElse_of_isSome _ h, fun h => orElse_of_isSome _ h,
      fun h => orElse_of_isSome _ h, fun h => orElse_of_isSome _ h⟩

/-- C3: when a path is present, `format` invokes the engine on the
decoded configuration with the path override applied (when a raw
configuration was supplied and decodes successfully), and on the default
configuration with the path override applied (when no raw configuration
was supplied) — the override is applied after decoding and before the
engine is invoked. -/
theorem format_applies_path_override (engine : Engine) (input p : String)
    (rc : RawConfig) (cfg : InnerConfig) (h : decodeConfig rc = .ok cfg) :
    format engine input (some p) (some rc) =
      invokeFormat engine input (cfg.with_path p) ∧
    format engine input (some p) none =
      invokeFormat engine input (InnerConfig.default.with_path p) := by
  constructor
  · simp [format, invokeFormat, h, Except.mapError]
  · rfl

/-- Witness for C3 at a concrete configuration and path. -/
theorem format_applies_path_override_witness :
    format idEngine "x = 1" (some "foo.py") (some [("indent_width", RawValue.num 4)]) =
      invokeFormat idEngine "x = 1"
        (InnerConfig.with_path { indent_width := some 4 } "foo.py") ∧
    format idEngine "x = 1" (some "foo.py") none =
      invokeFormat idEngine "x = 1" (InnerConfig.default.with_path "foo.py") :=
  format_applies_path_override idEngine "x = 1" "foo.py"
    [("indent_width", RawValue.num 4)] { indent_width := some 4 } rfl

/-- C4: when the raw configuration is absent, resolution starts from
the built-in default configuration — `resolve(None, None)` yields
exactly the default configuration, and `format(input, None, None)`
invokes the engine with the engine's fully populated default
configuration. -/
theorem format_absent_config_uses_default (engine : Engine) (input : String) :
    resolve none none = .ok InnerConfig.default ∧
    InnerConfig.default.toEngineConfig = defaultEngineConfig ∧
    format engine input none none =
      (match engine input defaultEngineConfig with
        | .ok result => .ok result.into_code
        | .error err => .error err.to_string) :=
  ⟨rfl, rfl, rfl⟩

/-- C5: a configuration object containing an unknown field or an
invalid enum value never decodes successfully; `format` on such an
object fails with the decoder's own message, rather than silently
defaulting or ignoring the bad part. -/
theorem decode_rejects_bad_fields (rc : RawConfig) (engine : Engine)
    (input : String) (path : Option String) (h : hasBadField rc = true) :
    (decodeConfig rc).isOk = false ∧
    format engine input path (some rc) = .error (decodeMsg rc) := by
  have hdec : (decodeConfig rc).isOk = false := decodeFields_bad_isOk rc h InnerConfig.default
  refine ⟨hdec, ?_⟩
  cases hd : decodeConfig rc with
  | ok cfg => rw [hd] at hdec; simp [Except.isOk, Except.toBool] at hdec
  | error e => simp [format, hd, Except.mapError, decodeMsg]

/-- Witness for C5 at a concrete invalid enum value. -/
theorem decode_rejects_bad_fields_witness :
    (decodeConfig [("quote_style", RawValue.str "smart")]).isOk = false ∧
    format idEngine "x = 1" none (some [("quote_style", RawValue.str "smart")]) =
      .error (decodeMsg [("quote_style", RawValue.str "smart")]) :=
  decode_rejects_bad_fields [("quote_style", RawValue.str "smart")]
    idEngine "x = 1" none rfl

/-- C6: every failure surfaced by `format` is exactly the failing
error's own textual representation — a decode failure surfaces the
decode error's `to_string`, an engine failure surfaces the engine
error's `to_string`, and both reach the caller through the same
string-valued error channel of the result type. -/
theorem format_errors_via_to_string (engine engine2 : Engine)
    (input input2 : String) (path path2 : Option String)
    (raw raw2 : Option RawConfig) (e : DecodeError) (cfg : InnerConfig)
    (err : FormatError)
    (hdec : resolve raw path = .error e)
    (hres : resolve raw2 path2 = .ok cfg)
    (heng : engine2 input2 cfg.toEngineConfig = .error err) :
    format engine input path raw = .error e.to_string ∧
    format engine2 input2 path2 raw2 = .error err.to_string := by
  constructor
  · rw [format_eq_resolve, hdec]
  · rw [format_eq_resolve, hres]
    simp [invokeFormat, heng]

/-- Witness for C6: a concrete decode failure and a concrete engine
failure surface their own messages. -/
theorem format_errors_via_to_string_witness :
    format idEngine "x = 1" none (some [("bogus", RawValue.str "v")]) =
      .error "unknown field bogus" ∧
    format failEngine "if x" none none = .error "Expected a statement" :=
  format_errors_via_to_string idEngine failEngine "x = 1" "if x" none none
    (some [("bogus", RawValue.str "v")]) none ⟨"unknown field bogus"⟩
    InnerConfig.default ⟨"Expected a statement"⟩ rfl rfl rfl

/-- C7: when the engine succeeds on the resolved configuration,
`format` returns exactly the code string extracted from the engine's
result object; when the engine fails, `format` returns the engine
error converted to its display string and nothing else. -/
theorem format_engine_passthrough (engine engine2 : Engine)
    (input input2 : String) (path path2 : Option String)
    (raw raw2 : Option RawConfig) (cfg cfg2 : InnerConfig)
    (r : FormatResult) (err : FormatError)
    (hres : resolve raw path = .ok cfg)
    (hok : engine input cfg.toEngineConfig = .ok r)
    (hres2 : resolve raw2 path2 = .ok cfg2)
    (herr : engine2 input2 cfg2.toEngineConfig = .error err) :
    format engine input path raw = .ok r.into_code ∧
    format engine2 input2 path2 raw2 = .error err.to_string := by
  constructor
  · rw [format_eq_resolve, hres]
    simp [invokeFormat, hok]
  · rw [format_eq_resolve, hres2]
    simp [invokeFormat, herr]

/-- Witness for C7: concrete succeeding and failing engine runs. -/
theorem format_engine_passthrough_witness :
    format idEngine "x = 1" none none = .ok "x = 1" ∧
    format failEngine "if x" none none = .error "Expected a statement" :=
  format_engine_passthrough idEngine failEngine "x = 1" "if x" none none
    none none InnerConfig.default InnerConfig.default ⟨"x = 1", false⟩
    ⟨"Expected a statement"⟩ rfl rfl rfl rfl

/-- C8: supplying the empty string as the path is the same call as
supplying no path at all — `format` yields identical results for every
engine, input and raw configuration, and folding the empty path into a
configuration changes nothing. -/
theorem format_empty_path_as_no_path (engine : Engine) (input : String)
    (raw : Option RawConfig) :
    format engine input (some "") raw = format engine input none raw := by
  rw [format_eq_resolve, format_eq_resolve]
  have hres : resolve raw (some "") = resolve raw none := by
    cases raw with
    | none => simp [resolve, with_path_empty]
    | some rc =>
      cases h : decodeConfig rc with
      | error e => simp [resolve, h]
      | ok cfg => simp [resolve, h, with_path_empty]
  rw [hres]

/-- C9: on the empty input string, with any path, any raw configuration
and any engine, `format` returns a defined outcome: either a success
holding a string or a failure holding an error message. -/
theorem format_empty_input_total (engine : Engine) (path : Option String)
    (raw : Option RawConfig) :
    (∃ s, format engine "" path raw = .ok s) ∨
    (∃ m, format engine "" path raw = .error m) := by
  cases h : format engine "" path raw with
  | ok s => exact .inl ⟨s, rfl⟩
  | error m => exact .inr ⟨m, rfl⟩

/-- C10: the outcome of the configuration-decoding step depends only on
the configuration object — when decoding fails, two calls with the same
configuration but different inputs and different paths produce the very
same result, carrying the same error string. -/
theorem decode_depends_only_on_config (engine : Engine)
    (input1 input2 : String) (path1 path2 : Option String)
    (rc : RawConfig) (e : DecodeError) (h : decodeConfig rc = .error e) :
    format engine input1 path1 (some rc) = .error e.to_string ∧
    format engine input1 path1 (some rc) = format engine input2 path2 (some rc) := by
  constructor
  · simp [format, h, Except.mapError]
  · simp [format, h, Except.mapError]

/-- Witness for C10: a failing configuration gives the same result on
two calls with different inputs and paths. -/
theorem decode_depends_only_on_config_witness :
    format idEngine "x = 1" none (some [("indent_style", RawValue.str "dots")]) =
      .error "invalid value for field indent_style" ∧
    format idEngine "x = 1" none (some [("indent_style", RawValue.str "dots")]) =
      format idEngine "y = 2" (some "b.py") (some [("indent_style", RawValue.str "dots")]) :=
  decode_depends_only_on_config idEngine "x = 1" "y = 2" none (some "b.py")
    [("indent_style", RawValue.str "dots")] ⟨"invalid value for field indent_style"⟩ rfl
